import Mathlib

/-!
# Verification of the Functor check-in bot (`Functor.py`)

A shallow embedding of the per-account check-in logic of the repository's
single source file `Functor.py`.  Python strings are modelled as `List Char`,
bytes as `List Nat`, JSON values as the inductive `JsonVal`, and the three
network operations are parameterised by an oracle giving the outcome of each
HTTP attempt (`none` = the attempt raised, `some r` = the attempt returned
the parsed response `r`).  Wall-clock instants are integers: seconds since
the Unix epoch for `int(time.time())` and microseconds since the epoch for
`datetime` values (aware UTC datetimes compare by their position on the
timeline, and adding `timedelta(hours=24)` adds exactly 86400 seconds).

Display-only computations of the source (coloured log strings, the banner,
the Moscow-time renderings of timestamps) are not modelled; every decision
the code takes is.
-/

/-- JSON values as produced by Python's `json.loads`.  Numbers are restricted
to integers: the claims under verification only involve integer fields
(`exp`, timestamps); payloads containing fractional numbers are outside the
model and are treated as parse failures. -/
inductive JsonVal where
  | null
  | bool (b : Bool)
  | num (n : Int)
  | str (s : List Char)
  | arr (elems : List JsonVal)
  | obj (fields : List (List Char × JsonVal))
deriving Repr, BEq

/-- Dictionary result of `json.loads` on an object: the field list in source
order (later duplicates override earlier ones, as in a Python dict). -/
abbrev Jdict := List (List Char × JsonVal)

def emailKey : List Char := ['e', 'm', 'a', 'i', 'l']

def subKey : List Char := ['s', 'u', 'b']

def expKey : List Char := ['e', 'x', 'p']

def dipKey : List Char :=
  ['d', 'i', 'p', 'I', 'n', 'i', 't', 'M', 'i', 'n', 'e', 'T', 'i', 'm', 'e']

/-- Last binding of a key in a field list (Python dicts built by `json.loads`
keep the last occurrence of a duplicated key). -/
def lookupLast (kvs : Jdict) (k : List Char) : Option JsonVal :=
  match kvs with
  | [] => none
  | (k', v) :: rest =>
    match lookupLast rest k with
    | some r => some r
    | none => if k' = k then some v else none

/-- Python `dict.get(k)`: `None` both when the key is absent and when its
value is JSON `null` (which `json.loads` maps to Python `None`). -/
def pyGet (kvs : Jdict) (k : List Char) : Option JsonVal :=
  match lookupLast kvs k with
  | some .null => none
  | r => r

/-- Python truthiness of an optional JSON-derived value (`None`, `0`, `""`,
`False`, empty list and empty dict are falsy). -/
def pyTruthy : Option JsonVal → Bool
  | none => false
  | some .null => false
  | some (.bool b) => b
  | some (.num n) => n != 0
  | some (.str s) => !s.isEmpty
  | some (.arr xs) => !xs.isEmpty
  | some (.obj kvs) => !kvs.isEmpty

/-- Python `entry.split(".")`: split on every `'.'`, keeping empty pieces;
the empty string yields `[""]`. -/
def splitDot : List Char → List (List Char)
  | [] => [[]]
  | c :: rest =>
    match splitDot rest with
    | [] => [[]]
    | p :: ps => if c = '.' then [] :: p :: ps else (c :: p) :: ps

/-- Python `line.split(":", 1)` followed by unpacking into two names:
`none` models the `ValueError` raised when no `':'` occurs. -/
def splitFirstColon : List Char → Option (List Char × List Char)
  | [] => none
  | c :: rest =>
    if c = ':' then some ([], rest)
    else (splitFirstColon rest).map (fun p => (c :: p.1, p.2))

def isJsonWs (c : Char) : Bool :=
  c = ' ' || c = '\t' || c = '\n' || c = '\r'

def skipWs : List Char → List Char
  | [] => []
  | c :: rest => if isJsonWs c then skipWs rest else c :: rest

def escChar (c : Char) : Option Char :=
  if c = '"' then some '"'
  else if c = '\\' then some '\\'
  else if c = '/' then some '/'
  else if c = 'b' then some (Char.ofNat 8)
  else if c = 'f' then some (Char.ofNat 12)
  else if c = 'n' then some '\n'
  else if c = 'r' then some '\r'
  else if c = 't' then some '\t'
  else none

def hexVal (c : Char) : Option Nat :=
  if '0' ≤ c ∧ c ≤ '9' then some (c.toNat - 48)
  else if 'a' ≤ c ∧ c ≤ 'f' then some (c.toNat - 97 + 10)
  else if 'A' ≤ c ∧ c ≤ 'F' then some (c.toNat - 65 + 10)
  else none

/-- JSON string body after the opening quote: returns the decoded content and
the input after the closing quote.  Raw control characters are rejected
(Python's default `strict=True`); `\uXXXX` escapes of surrogates (which
Python would accept as lone surrogates or combine as pairs) are outside the
model. -/
def parseStr : List Char → Option (List Char × List Char)
  | [] => none
  | c :: rest =>
    if c = '"' then some ([], rest)
    else if c = '\\' then
      match rest with
      | [] => none
      | e :: rest2 =>
        match escChar e with
        | some ec => (parseStr rest2).map (fun p => (ec :: p.1, p.2))
        | none =>
          if e = 'u' then
            match rest2 with
            | h1 :: h2 :: h3 :: h4 :: rest3 =>
              match hexVal h1, hexVal h2, hexVal h3, hexVal h4 with
              | some a, some b, some cc, some d =>
                let n := a * 4096 + b * 256 + cc * 16 + d
                if 0xD800 ≤ n ∧ n < 0xE000 then none
                else (parseStr rest3).map (fun p => (Char.ofNat n :: p.1, p.2))
              | _, _, _, _ => none
            | _ => none
          else none
    else if c.toNat < 0x20 then none
    else (parseStr rest).map (fun p => (c :: p.1, p.2))

def digitVal (c : Char) : Option Nat :=
  if '0' ≤ c ∧ c ≤ '9' then some (c.toNat - 48) else none

def takeDigits : List Char → Nat → Nat × List Char
  | [], acc => (acc, [])
  | c :: rest, acc =>
    match digitVal c with
    | some d => takeDigits rest (acc * 10 + d)
    | none => (acc, c :: rest)

/-- Finish an integer literal: a following `'.'`, `'e'` or `'E'` would start
a float, which the integer-only model does not cover (treated as failure). -/
def parseNumTail (neg : Bool) (v : Nat) (rest : List Char) :
    Option (JsonVal × List Char) :=
  match rest with
  | c :: _ =>
    if c = '.' ∨ c = 'e' ∨ c = 'E' then none
    else some (.num (if neg then -(v : Int) else (v : Int)), rest)
  | [] => some (.num (if neg then -(v : Int) else (v : Int)), [])

/-- JSON integer literal with the grammar `-?(0|[1-9][0-9]*)`. -/
def parseIntLit (cs : List Char) : Option (JsonVal × List Char) :=
  let p := match cs with
    | '-' :: r => (true, r)
    | _ => (false, cs)
  match p.2 with
  | c :: rest =>
    if c = '0' then parseNumTail p.1 0 rest
    else
      match digitVal c with
      | some d =>
        let q := takeDigits rest d
        parseNumTail p.1 q.1 q.2
      | none => none
  | [] => none

def stripPrefixChars : List Char → List Char → Option (List Char)
  | [], cs => some cs
  | p :: ps, c :: cs => if c = p then stripPrefixChars ps cs else none
  | _ :: _, [] => none

mutual

/-- Recursive-descent JSON value parser modelling Python's `json.loads`
grammar, fuelled for termination (`jsonLoads` supplies ample fuel).  The
non-standard `NaN`/`Infinity` literals Python additionally accepts are
floats and outside the integer-only model. -/
def parseVal : Nat → List Char → Option (JsonVal × List Char)
  | 0, _ => none
  | fuel + 1, cs =>
    match skipWs cs with
    | [] => none
    | c :: rest =>
      if c = '"' then (parseStr rest).map (fun p => (.str p.1, p.2))
      else if c = '{' then
        match skipWs rest with
        | '}' :: r2 => some (.obj [], r2)
        | cs2 => parseMembers fuel cs2 []
      else if c = '[' then
        match skipWs rest with
        | ']' :: r2 => some (.arr [], r2)
        | cs2 => parseElems fuel cs2 []
      else if c = 't' then
        (stripPrefixChars ['r', 'u', 'e'] rest).map (fun r => (.bool true, r))
      else if c = 'f' then
        (stripPrefixChars ['a', 'l', 's', 'e'] rest).map (fun r => (.bool false, r))
      else if c = 'n' then
        (stripPrefixChars ['u', 'l', 'l'] rest).map (fun r => (.null, r))
      else parseIntLit (c :: rest)

/-- Object members after `'{'` (non-empty case). -/
def parseMembers : Nat → List Char → Jdict → Option (JsonVal × List Char)
  | 0, _, _ => none
  | fuel + 1, cs, acc =>
    match skipWs cs with
    | '"' :: r1 =>
      match parseStr r1 with
      | none => none
      | some (k, r2) =>
        match skipWs r2 with
        | ':' :: r3 =>
          match parseVal fuel r3 with
          | none => none
          | some (v, r4) =>
            match skipWs r4 with
            | ',' :: r5 => parseMembers fuel r5 (acc ++ [(k, v)])
            | '}' :: r5 => some (.obj (acc ++ [(k, v)]), r5)
            | _ => none
        | _ => none
    | _ => none

/-- Array elements after `'['` (non-empty case). -/
def parseElems : Nat → List Char → List JsonVal → Option (JsonVal × List Char)
  | 0, _, _ => none
  | fuel + 1, cs, acc =>
    match parseVal fuel cs with
    | none => none
    | some (v, r1) =>
      match skipWs r1 with
      | ',' :: r2 => parseElems fuel r2 (acc ++ [v])
      | ']' :: r2 => some (.arr (acc ++ [v]), r2)
      | _ => none

end

/-- Python `json.loads`: parse one value and require only whitespace to
remain ("Extra data" otherwise). -/
def jsonLoads (cs : List Char) : Option JsonVal :=
  match parseVal (cs.length + 1) cs with
  | some (v, rest) => if (skipWs rest).isEmpty then some v else none
  | none => none

/-- Sextet value of a base64 character.  `base64.urlsafe_b64decode` first
translates `'-' ↦ '+'` and `'_' ↦ '/'` and then decodes with the standard
alphabet, so the standard characters `'+'` and `'/'` are accepted too; the
translation is folded into this table. -/
def b64Val (c : Char) : Option Nat :=
  if 'A' ≤ c ∧ c ≤ 'Z' then some (c.toNat - 65)
  else if 'a' ≤ c ∧ c ≤ 'z' then some (c.toNat - 97 + 26)
  else if '0' ≤ c ∧ c ≤ '9' then some (c.toNat - 48 + 52)
  else if c = '+' ∨ c = '-' then some 62
  else if c = '/' ∨ c = '_' then some 63
  else none

/-- Three bytes of a complete quad of sextets. -/
def emitQuad (a b c d : Nat) : List Nat :=
  [a * 4 + b / 16, b % 16 * 16 + c / 4, c % 4 * 64 + d]

/-- Bytes of a padded partial quad (two or three sextets). -/
def emitPartial : List Nat → List Nat
  | [a, b] => [a * 4 + b / 16]
  | [a, b, c] => [a * 4 + b / 16, b % 16 * 16 + c / 4]
  | _ => []

/-- The scanning loop of CPython's `binascii.a2b_base64` in its default
non-strict mode: characters outside the alphabet are discarded; `'='` at quad
position 0 or 1 is ignored; `'='` at quad position 2 or 3 counts as padding
and, once the quad is completed by padding, decoding succeeds immediately
(remaining input is ignored); a data character resets the padding count.
Input exhausted with a non-empty quad is an error (`binascii.Error`,
"Incorrect padding" / "number of data characters cannot be 1 more than a
multiple of 4"). -/
def a2bLoop : List Char → List Nat → Nat → List Nat → Option (List Nat)
  | [], quad, _, acc => if quad.isEmpty then some acc else none
  | c :: rest, quad, pads, acc =>
    if c = '=' then
      if 2 ≤ quad.length then
        if 4 ≤ quad.length + pads + 1 then some (acc ++ emitPartial quad)
        else a2bLoop rest quad (pads + 1) acc
      else a2bLoop rest quad pads acc
    else
      match b64Val c with
      | none => a2bLoop rest quad pads acc
      | some v =>
        match quad with
        | [a, b, cq] => a2bLoop rest [] 0 (acc ++ emitQuad a b cq v)
        | _ => a2bLoop rest (quad ++ [v]) 0 acc

/-- `base64.urlsafe_b64decode` on a string, yielding the byte list or `none`
when `binascii.Error` is raised. -/
def urlsafe_b64decode (s : List Char) : Option (List Nat) :=
  a2bLoop s [] 0 []

/-- Strict UTF-8 decoding of a byte list (Python `bytes.decode("utf-8")`):
continuation bytes are checked, overlong forms, surrogates and values above
`0x10FFFF` are rejected; `none` models `UnicodeDecodeError`. -/
def utf8Decode : List Nat → Option (List Char)
  | [] => some []
  | b :: rest =>
    if b < 0x80 then
      (utf8Decode rest).map (Char.ofNat b :: ·)
    else if b < 0xC2 then none
    else if b < 0xE0 then
      match rest with
      | b1 :: rest1 =>
        if 0x80 ≤ b1 ∧ b1 < 0xC0 then
          (utf8Decode rest1).map (Char.ofNat ((b - 0xC0) * 64 + (b1 - 0x80)) :: ·)
        else none
      | _ => none
    else if b < 0xF0 then
      match rest with
      | b1 :: b2 :: rest2 =>
        if (0x80 ≤ b1 ∧ b1 < 0xC0) ∧ (0x80 ≤ b2 ∧ b2 < 0xC0) then
          let n := (b - 0xE0) * 4096 + (b1 - 0x80) * 64 + (b2 - 0x80)
          if 0x800 ≤ n ∧ ¬ (0xD800 ≤ n ∧ n < 0xE000) then
            (utf8Decode rest2).map (Char.ofNat n :: ·)
          else none
        else none
      | _ => none
    else if b < 0xF5 then
      match rest with
      | b1 :: b2 :: b3 :: rest3 =>
        if (0x80 ≤ b1 ∧ b1 < 0xC0) ∧ (0x80 ≤ b2 ∧ b2 < 0xC0) ∧
            (0x80 ≤ b3 ∧ b3 < 0xC0) then
          let n := (b - 0xF0) * 262144 + (b1 - 0x80) * 4096 +
            (b2 - 0x80) * 64 + (b3 - 0x80)
          if 0x10000 ≤ n ∧ n < 0x110000 then
            (utf8Decode rest3).map (Char.ofNat n :: ·)
          else none
        else none
      | _ => none
    else none

/-- The payload pipeline of `extract_jwt_data`:
`base64.urlsafe_b64decode(payload + "==")`, then `.decode("utf-8")`, then
`json.loads`; `none` when any stage raises. -/
def payloadDecode (p : List Char) : Option JsonVal :=
  match urlsafe_b64decode (p ++ ['=', '=']) with
  | none => none
  | some bytes =>
    match utf8Decode bytes with
    | none => none
    | some s => jsonLoads s

/-- `FunctorChecker.extract_jwt_data` (`Functor.py` lines 125-144): split the
entry on `'.'`, require exactly three parts, decode the second, and return
`(payload.get("email"), payload.get("sub"), payload.get("exp"))`; any raised
exception — including the `AttributeError` of calling `.get` on a non-dict
payload — is caught and yields `(None, None, None)`. -/
def extract_jwt_data (entry : List Char) :
    Option JsonVal × Option JsonVal × Option JsonVal :=
  match splitDot entry with
  | [_, payload, _] =>
    match payloadDecode payload with
    | some (.obj kvs) => (pyGet kvs emailKey, pyGet kvs subKey, pyGet kvs expKey)
    | _ => (none, none, none)
  | _ => (none, none, none)

def digitChar (n : Nat) : Char := Char.ofNat (48 + n)

def natDigitsAux : Nat → Nat → List Char
  | 0, _ => []
  | fuel + 1, n =>
    if n < 10 then [digitChar n]
    else natDigitsAux fuel (n / 10) ++ [digitChar (n % 10)]

/-- Decimal digit string of a natural number, as Python renders it. -/
def natDigits (n : Nat) : List Char := natDigitsAux (n + 1) n

/-- Python format `f"{n:02}"`: zero-pad a non-negative number to width 2. -/
def pad2 (n : Nat) : List Char :=
  let d := natDigits n
  if 2 ≤ d.length then d else '0' :: d

/-- `FunctorChecker.format_seconds` (`Functor.py` lines 82-89):
`h, remainder = divmod(sec, 3600)`, `m, s = divmod(remainder, 60)`, rendered
as `f"{h:02}:{m:02}:{s:02}"`. -/
def format_seconds (sec : Nat) : List Char :=
  pad2 (sec / 3600) ++ ':' :: pad2 (sec % 3600 / 60) ++ ':' :: pad2 (sec % 3600 % 60)

/-- Value of a decimal digit string (leading zeros allowed). -/
def digitsToNat (ds : List Char) : Nat :=
  ds.foldl (fun acc c => acc * 10 + (c.toNat - 48)) 0

def parseYear : List Char → Option (Nat × List Char)
  | a :: b :: c :: d :: rest =>
    match digitVal a, digitVal b, digitVal c, digitVal d with
    | some x, some y, some z, some w => some (x * 1000 + y * 100 + z * 10 + w, rest)
    | _, _, _, _ => none
  | _ => none

/-- One numeric field of `strptime`: its regex is an alternation trying the
two-digit forms first (`ok2` on the two digit values) and falling back to a
single digit (`ok1`). -/
def parseTwoOrOne (ok2 : Nat → Nat → Bool) (ok1 : Nat → Bool) :
    List Char → Option (Nat × List Char)
  | a :: b :: rest =>
    match digitVal a, digitVal b with
    | some x, some y =>
      if ok2 x y then some (x * 10 + y, rest)
      else if ok1 x then some (x, b :: rest) else none
    | some x, none => if ok1 x then some (x, b :: rest) else none
    | _, _ => none
  | [a] =>
    match digitVal a with
    | some x => if ok1 x then some (x, []) else none
    | none => none
  | [] => none

def takeUpTo : Nat → List Char → List Nat × List Char
  | 0, cs => ([], cs)
  | k + 1, c :: rest =>
    match digitVal c with
    | some d =>
      let p := takeUpTo k rest
      (d :: p.1, p.2)
    | none => ([], c :: rest)
  | _ + 1, [] => ([], [])

/-- `%f`: one to six digits, greedy, scaled to microseconds by right-padding
with zeros (`_strptime` computes `int(f + "0" * (6 - len(f)))`). -/
def parseMicro (cs : List Char) : Option (Nat × List Char) :=
  let p := takeUpTo 6 cs
  if p.1.isEmpty then none
  else some (p.1.foldl (fun a d => a * 10 + d) 0 * 10 ^ (6 - p.1.length), p.2)

def expectChar (c : Char) : List Char → Option (List Char)
  | x :: rest => if x = c then some rest else none
  | [] => none

def isLeapYear (y : Nat) : Bool := y % 4 = 0 && (y % 100 != 0 || y % 400 = 0)

def monthLen (y m : Nat) : Nat :=
  if m = 2 then (if isLeapYear y then 29 else 28)
  else if m = 4 ∨ m = 6 ∨ m = 9 ∨ m = 11 then 30
  else 31

def daysBeforeMonth (y m : Nat) : Nat :=
  (List.range (m - 1)).foldl (fun acc i => acc + monthLen y (i + 1)) 0

/-- `datetime.date(y, m, d).toordinal()` of the proleptic Gregorian calendar
(`0001-01-01` is day 1); `1970-01-01` is day 719163. -/
def toOrdinal (y m d : Nat) : Nat :=
  365 * (y - 1) + (y - 1) / 4 - (y - 1) / 100 + (y - 1) / 400 + daysBeforeMonth y m + d

/-- `datetime.strptime(s, "%Y-%m-%dT%H:%M:%S.%fZ").replace(tzinfo=utc)` as
microseconds since the Unix epoch.  The field regexes of `_strptime` are
reproduced (`%Y` exactly four digits; month `1[0-2]|0[1-9]|[1-9]`; day
`3[01]|[12]\d|0[1-9]|[1-9]`; hour `2[0-3]|[0-1]\d|\d`; minute `[0-5]\d|\d`;
second `6[0-1]|[0-5]\d|\d`), the whole string must be consumed, and the
`datetime` constructor's range checks apply (year ≥ 1, day within the month,
second ≤ 59).  `none` models the raised `ValueError`. -/
def monthOk2 (x y : Nat) : Bool := (x = 1 && y ≤ 2) || (x = 0 && 1 ≤ y)

def dayOk2 (x y : Nat) : Bool :=
  (x = 3 && y ≤ 1) || x = 1 || x = 2 || (x = 0 && 1 ≤ y)

def hourOk2 (x y : Nat) : Bool := (x = 2 && y ≤ 3) || x ≤ 1

def minuteOk2 (x _y : Nat) : Bool := x ≤ 5

def secondOk2 (x y : Nat) : Bool := (x = 6 && y ≤ 1) || x ≤ 5

def oneNonzero (x : Nat) : Bool := 1 ≤ x

def anyDigit (_x : Nat) : Bool := true

/-- The `datetime` object assembled by `strptime`, reduced to microseconds
since the Unix epoch, after the constructor's range checks (year ≥ 1, day
within the month, second ≤ 59 — the regex admits leap seconds 60/61 but the
constructor rejects them). -/
def mkDatetimeUs (y mo d h mi s f : Nat) : Option Int :=
  if 1 ≤ y ∧ d ≤ monthLen y mo ∧ s ≤ 59 then
    some ((((toOrdinal y mo d : Int) - 719163) * 86400 + h * 3600 + mi * 60 + s)
      * 1000000 + f)
  else none

def strptimeUs (cs : List Char) : Option Int :=
  (parseYear cs).bind fun py =>
  (expectChar '-' py.2).bind fun r2 =>
  (parseTwoOrOne monthOk2 oneNonzero r2).bind fun pmo =>
  (expectChar '-' pmo.2).bind fun r4 =>
  (parseTwoOrOne dayOk2 oneNonzero r4).bind fun pd =>
  (expectChar 'T' pd.2).bind fun r6 =>
  (parseTwoOrOne hourOk2 anyDigit r6).bind fun ph =>
  (expectChar ':' ph.2).bind fun r8 =>
  (parseTwoOrOne minuteOk2 anyDigit r8).bind fun pmi =>
  (expectChar ':' pmi.2).bind fun r10 =>
  (parseTwoOrOne secondOk2 anyDigit r10).bind fun ps =>
  (expectChar '.' ps.2).bind fun r12 =>
  (parseMicro r12).bind fun pf =>
  (expectChar 'Z' pf.2).bind fun r14 =>
  if r14 = [] then mkDatetimeUs py.1 pmo.1 pd.1 ph.1 pmi.1 ps.1 pf.1
  else none

/-- Result of one of the retrying network operations that return a token:
the value obtained, the number of HTTP attempts actually made, and the
number of 3-second `asyncio.sleep(3)` calls performed. -/
structure NetTrace where
  result : Option (List Char)
  calls : Nat
  sleeps : Nat
deriving Repr, DecidableEq

/-- The retry loop of `attempt_email_signin`: `oracle i` is the outcome of
HTTP attempt `i` (`none` = the attempt raised — every exception is caught by
the `except` clause; `some t` = the response was obtained and
`res.get("accessToken")` evaluated to `t`).  A sleep happens only when
`i < attempts - 1`, i.e. between attempts. -/
def signinLoop (oracle : Nat → Option (Option (List Char))) :
    Nat → Nat → NetTrace
  | _, 0 => ⟨none, 0, 0⟩
  | i, rem + 1 =>
    match oracle i with
    | some t => ⟨t, 1, 0⟩
    | none =>
      let r := signinLoop oracle (i + 1) rem
      ⟨r.result, r.calls + 1, r.sleeps + if rem = 0 then 0 else 1⟩

/-- `FunctorChecker.attempt_email_signin` (`Functor.py` lines 148-169):
up to `attempts` (default 5) tries, returning `None` after exhausting them. -/
def attempt_email_signin (oracle : Nat → Option (Option (List Char)))
    (attempts : Nat := 5) : NetTrace :=
  signinLoop oracle 0 attempts

/-- Result of a retrying GET returning a JSON dict (empty on total failure). -/
structure DictTrace where
  result : Jdict
  calls : Nat
  sleeps : Nat
deriving Repr

/-- The retry loop shared by `request_user_info` and `perform_checkin`:
five tries, a 3-second sleep after every failure (including the last),
`{}` after exhausting all attempts. -/
def fetchLoop (oracle : Nat → Option Jdict) : Nat → Nat → DictTrace
  | _, 0 => ⟨[], 0, 0⟩
  | i, rem + 1 =>
    match oracle i with
    | some d => ⟨d, 1, 0⟩
    | none =>
      let r := fetchLoop oracle (i + 1) rem
      ⟨r.result, r.calls + 1, r.sleeps + 1⟩

/-- `FunctorChecker.request_user_info` (`Functor.py` lines 171-189). -/
def request_user_info (oracle : Nat → Option Jdict) : DictTrace :=
  fetchLoop oracle 0 5

/-- `FunctorChecker.perform_checkin` (`Functor.py` lines 191-209). -/
def perform_checkin (oracle : Nat → Option Jdict) : DictTrace :=
  fetchLoop oracle 0 5

/-- What `manage_checkin` decides and logs for one account.  `checkinFirst`
and `checkinRepeat` are the branches that call `perform_checkin` (`ok` is
the truthiness of its response); `tooEarly` is the skip branch, carrying the
`dt_next = dt_parsed + timedelta(hours=24)` instant whose Moscow-time
rendering is logged; `raisesParse` marks the `ValueError`/`TypeError` that
`datetime.strptime` raises on a malformed value and that propagates out of
`manage_checkin` uncaught. -/
inductive CheckinDecision where
  | fetchFailed
  | checkinFirst (ok : Bool)
  | checkinRepeat (ok : Bool) (nextUs : Int)
  | tooEarly (nextUs : Int)
  | raisesParse
deriving Repr, DecidableEq

def usPerDay : Int := 86400000000

/-- The ambient state a pass over one account depends on: the two clock
readings and the outcome oracles of the three network operations. -/
structure Env where
  nowSec : Int
  nowUs : Int
  signin : Nat → Option (Option (List Char))
  info : Nat → Option Jdict
  checkin : Nat → Option Jdict

/-- `FunctorChecker.manage_checkin` (`Functor.py` lines 213-263): fetch the
user info (`{}` is falsy → give up); if `dipInitMineTime` is falsy perform
the first check-in; otherwise parse it, add 24 hours and perform the repeat
check-in exactly when `dt_now_utc >= dt_next`, else only log the next
allowed instant.  (The balance lookup on line 223 feeds only a log line and
is not modelled.) -/
def manage_checkin (env : Env) : CheckinDecision :=
  let info := (request_user_info env.info).result
  if info.isEmpty then .fetchFailed
  else
    let last := pyGet info dipKey
    if pyTruthy last then
      match last with
      | some (.str s) =>
        match strptimeUs s with
        | some l =>
          if env.nowUs ≥ l + usPerDay then
            .checkinRepeat (!(perform_checkin env.checkin).result.isEmpty) (l + usPerDay)
          else .tooEarly (l + usPerDay)
        | none => .raisesParse
      | _ => .raisesParse
    else .checkinFirst (!(perform_checkin env.checkin).result.isEmpty)

/-- `true` exactly on the outcomes in which `perform_checkin` was called. -/
def performedCheckin : CheckinDecision → Bool
  | .checkinFirst _ => true
  | .checkinRepeat _ _ => true
  | _ => false

inductive TokenStatus where
  | expired
  | active
deriving Repr, DecidableEq

/-- `FunctorChecker.check_token_status` (`Functor.py` lines 106-121): logs
"ПРОСРОЧЕН" when `now_utc > exp_utc` and "АКТИВЕН" otherwise. -/
def check_token_status (nowUtc expUtc : Int) : TokenStatus :=
  if nowUtc > expUtc then .expired else .active

/-- What one iteration of the `for line in lines` body of `main_cycle` does
with its line.  `skipSilent`: the `if user_n and user_s and user_e` guard
failed — nothing at all is logged or fetched.  `tokenStatus st policy`: the
token's status was logged and, when `now_int <= user_e`, `manage_checkin`
ran with decision `policy = some d`.  `raisesType`: a truthy non-string
email or non-numeric `exp` makes `partial_hide` / `fromtimestamp` raise a
`TypeError` that escapes the loop.  `invalidFormat`: the `ValueError` from
unpacking `line.split(":", 1)` was caught and the line logged as malformed.
`emailOutcome`: the email/password flow ran; `some d` when a token was
obtained, its `sub` was truthy and `manage_checkin` ran. -/
inductive LineAction where
  | skipSilent
  | tokenStatus (st : TokenStatus) (policy : Option CheckinDecision)
  | raisesType
  | invalidFormat
  | emailOutcome (policy : Option CheckinDecision)
deriving Repr, DecidableEq

/-- The per-line dispatch of `FunctorChecker.main_cycle`
(`Functor.py` lines 284-323). -/
def process_line (env : Env) (line : List Char) : LineAction :=
  if '@' ∈ line then
    match splitFirstColon line with
    | none => .invalidFormat
    | some _ =>
      match (attempt_email_signin env.signin).result with
      | some t =>
        if t.isEmpty then .emailOutcome none
        else
          let r := extract_jwt_data t
          if pyTruthy r.2.1 then .emailOutcome (some (manage_checkin env))
          else .emailOutcome none
      | none => .emailOutcome none
  else
    let r := extract_jwt_data line
    if pyTruthy r.1 && pyTruthy r.2.1 && pyTruthy r.2.2 then
      match r.1, r.2.2 with
      | some (.str _), some (.num exp) =>
        .tokenStatus (check_token_status env.nowSec exp)
          (if env.nowSec ≤ exp then some (manage_checkin env) else none)
      | _, _ => .raisesType
    else .skipSilent

/-- The `for line in lines` iteration, one `(env, line)` pair per line (each
line sees its own clock readings and network outcomes). -/
def processLines (jobs : List (Env × List Char)) : List LineAction :=
  jobs.map (fun j => process_line j.1 j.2)

def statusOf : LineAction → Option TokenStatus
  | .tokenStatus st _ => some st
  | _ => none

def ranPolicy : LineAction → Bool
  | .tokenStatus _ (some _) => true
  | .emailOutcome (some _) => true
  | _ => false

/-- The `while True` loop inside `main_cycle` (`Functor.py` lines 280-336),
with each outer iteration's body abstracted to its exception outcome
(`none` = the iteration completed, `some e` = an exception with message `e`
escaped the body).  The loop itself contains no handler, so the first
raising iteration aborts it and the exception propagates to the caller. -/
def mainCycleModel : List (Option String) → Option String
  | [] => none
  | none :: rest => mainCycleModel rest
  | some e :: _ => some e

/-- How many outer-loop iterations actually start executing under a given
schedule of iteration outcomes. -/
def executedIterations : List (Option String) → Nat
  | [] => 0
  | none :: rest => executedIterations rest + 1
  | some _ :: _ => 1

/-- Observable outcome of `run_final`: what its `except` clause logged, and
whether an exception still propagates out of `run_final` itself. -/
structure FinalResult where
  logged : Option String
  raised : Option String
deriving Repr, DecidableEq

/-- `FunctorChecker.run_final` (`Functor.py` lines 338-346): the single
`try/except` wraps the whole `main_cycle()` call — it lies outside the
`while True` loop.  A caught exception is logged and swallowed, after which
`run_final` simply returns. -/
def run_final (iters : List (Option String)) : FinalResult :=
  match mainCycleModel iters with
  | some e => ⟨some e, none⟩
  | none => ⟨none, none⟩

/-- Concrete environments and tokens used to instantiate the theorems on
closed inputs. -/
def envZero : Env := ⟨0, 0, fun _ => none, fun _ => none, fun _ => none⟩

def envExpired : Env :=
  ⟨2000000000, 0, fun _ => none, fun _ => none, fun _ => none⟩

def envBoundary : Env :=
  ⟨1999999999, 0, fun _ => none, fun _ => none, fun _ => none⟩

/-- A token whose payload is
`{"email":"a@b.com","sub":"123","exp":1999999999}`. -/
def tokenT5 : List Char :=
  "hh.eyJlbWFpbCI6ImFAYi5jb20iLCJzdWIiOiIxMjMiLCJleHAiOjE5OTk5OTk5OTl9.sig".toList

/-- A token whose payload is `{"email":"","sub":"123","exp":55}` — decodable,
but with a falsy (empty) email. -/
def tokenT9 : List Char :=
  "hh.eyJlbWFpbCI6IiIsInN1YiI6IjEyMyIsImV4cCI6NTV9.sig".toList

def tsW : List Char := "2026-01-01T00:00:00.000000Z".toList

/-- Environment whose status fetch reports a check-in done exactly 24 hours
before `nowUs`. -/
def envRepeat : Env :=
  ⟨0, 1767225600000000 + 86400000000, fun _ => none,
    fun _ => some [(dipKey, .str tsW)], fun _ => some [(subKey, .num 1)]⟩

theorem splitDot_ne_nil (l : List Char) : splitDot l ≠ [] := by
  cases l with
  | nil => simp [splitDot]
  | cons c rest =>
    simp only [splitDot]
    rcases splitDot rest with _ | ⟨p, ps⟩
    · simp
    · dsimp only
      split <;> simp

theorem splitDot_no_dot (l : List Char) (h : '.' ∉ l) : splitDot l = [l] := by
  induction l with
  | nil => rfl
  | cons c rest ih =>
    simp only [List.mem_cons, not_or] at h
    have hne : ¬ c = '.' := fun hc => h.1 hc.symm
    simp only [splitDot, ih h.2, hne, if_false]

theorem splitDot_append (a b : List Char) (h : '.' ∉ a) :
    splitDot (a ++ '.' :: b) = a :: splitDot b := by
  induction a with
  | nil =>
    simp only [List.nil_append, splitDot]
    rcases hb : splitDot b with _ | ⟨p, ps⟩
    · exact absurd hb (splitDot_ne_nil b)
    · simp
  | cons c rest ih =>
    simp only [List.mem_cons, not_or] at h
    have hne : ¬ c = '.' := fun hc => h.1 hc.symm
    simp only [List.cons_append, splitDot, List.append_eq, ih h.2, hne, if_false]

theorem splitFirstColon_of_no_colon (l : List Char) (h : ':' ∉ l) :
    splitFirstColon l = none := by
  induction l with
  | nil => rfl
  | cons c rest ih =>
    simp only [List.mem_cons, not_or] at h
    have hne : ¬ c = ':' := fun hc => h.1 hc.symm
    simp [splitFirstColon, hne, ih h.2]

theorem signinLoop_calls_le (o : Nat → Option (Option (List Char))) :
    ∀ rem i, (signinLoop o i rem).calls ≤ rem := by
  intro rem
  induction rem with
  | zero => intro i; simp [signinLoop]
  | succ n ih =>
    intro i
    simp only [signinLoop]
    cases o i with
    | some t => simp
    | none =>
      simp only []
      exact Nat.succ_le_succ (ih (i + 1))

theorem signinLoop_all_fail (o : Nat → Option (Option (List Char))) :
    ∀ rem i, (∀ j, j < rem → o (i + j) = none) →
      signinLoop o i rem = ⟨none, rem, rem - 1⟩ := by
  intro rem
  induction rem with
  | zero => intro i _; simp [signinLoop]
  | succ n ih =>
    intro i h
    have h0 : o i = none := by simpa using h 0 n.succ_pos
    have hrest : signinLoop o (i + 1) n = ⟨none, n, n - 1⟩ := by
      refine ih (i + 1) (fun j hj => ?_)
      have harg : i + 1 + j = i + (j + 1) := by omega
      rw [harg]
      exact h (j + 1) (by omega)
    simp only [signinLoop, h0, hrest]
    cases n with
    | zero => rfl
    | succ m => simp

theorem fetchLoop_calls_le (o : Nat → Option Jdict) :
    ∀ rem i, (fetchLoop o i rem).calls ≤ rem := by
  intro rem
  induction rem with
  | zero => intro i; simp [fetchLoop]
  | succ n ih =>
    intro i
    simp only [fetchLoop]
    cases o i with
    | some t => simp
    | none =>
      simp only []
      exact Nat.succ_le_succ (ih (i + 1))

theorem fetchLoop_all_fail (o : Nat → Option Jdict) :
    ∀ rem i, (∀ j, j < rem → o (i + j) = none) →
      fetchLoop o i rem = ⟨[], rem, rem⟩ := by
  intro rem
  induction rem with
  | zero => intro i _; simp [fetchLoop]
  | succ n ih =>
    intro i h
    have h0 : o i = none := by simpa using h 0 n.succ_pos
    have hrest : fetchLoop o (i + 1) n = ⟨[], n, n⟩ := by
      refine ih (i + 1) (fun j hj => ?_)
      have harg : i + 1 + j = i + (j + 1) := by omega
      rw [harg]
      exact h (j + 1) (by omega)
    simp [fetchLoop, h0, hrest]

/-- C6: every network operation (email sign-in, status fetch, check-in
trigger) attempts its HTTP call at most 5 times, sleeps a fixed 3 seconds
between failed attempts (the sign-in loop only between attempts, the two GET
loops after every failure), never lets an exception propagate (the loops are
total functions of the attempt outcomes), and after exhausting all attempts
returns the empty result: `None` for sign-in, `{}` for status fetch and
check-in. -/
theorem network_retry_policy (o1 : Nat → Option (Option (List Char)))
    (o2 o3 : Nat → Option Jdict) :
    ((attempt_email_signin o1).calls ≤ 5 ∧ (request_user_info o2).calls ≤ 5 ∧
      (perform_checkin o3).calls ≤ 5) ∧
    ((∀ j, j < 5 → o1 j = none) →
      attempt_email_signin o1 = ⟨none, 5, 4⟩) ∧
    ((∀ j, j < 5 → o2 j = none) → request_user_info o2 = ⟨[], 5, 5⟩) ∧
    ((∀ j, j < 5 → o3 j = none) → perform_checkin o3 = ⟨[], 5, 5⟩) := by
  refine ⟨⟨signinLoop_calls_le o1 5 0, fetchLoop_calls_le o2 5 0,
    fetchLoop_calls_le o3 5 0⟩, ?_, ?_, ?_⟩
  · intro h
    exact signinLoop_all_fail o1 5 0 (fun j hj => by simpa using h j hj)
  · intro h
    exact fetchLoop_all_fail o2 5 0 (fun j hj => by simpa using h j hj)
  · intro h
    exact fetchLoop_all_fail o3 5 0 (fun j hj => by simpa using h j hj)

/-- Witness for C6 at the everywhere-failing oracles. -/
theorem network_retry_policy_witness :
    attempt_email_signin (fun _ => none) = ⟨none, 5, 4⟩ ∧
    request_user_info (fun _ => none) = ⟨[], 5, 5⟩ ∧
    perform_checkin (fun _ => none) = ⟨[], 5, 5⟩ :=
  ⟨(network_retry_policy (fun _ => none) (fun _ => none) (fun _ => none)).2.1
      (fun _ _ => rfl),
    (network_retry_policy (fun _ => none) (fun _ => none) (fun _ => none)).2.2.1
      (fun _ _ => rfl),
    (network_retry_policy (fun _ => none) (fun _ => none) (fun _ => none)).2.2.2
      (fun _ _ => rfl)⟩

theorem digitChar_toNat (n : Nat) (h : n < 10) : (digitChar n).toNat = 48 + n := by
  interval_cases n <;> rfl

theorem digitChar_isDigit (n : Nat) (h : n < 10) : (digitChar n).isDigit := by
  interval_cases n <;> rfl

theorem digitsToNat_append_singleton (xs : List Char) (c : Char) :
    digitsToNat (xs ++ [c]) = digitsToNat xs * 10 + (c.toNat - 48) := by
  simp [digitsToNat, List.foldl_append]

theorem natDigitsAux_spec :
    ∀ fuel n, n < fuel →
      digitsToNat (natDigitsAux fuel n) = n ∧
      1 ≤ (natDigitsAux fuel n).length ∧
      ∀ c ∈ natDigitsAux fuel n, c.isDigit := by
  intro fuel
  induction fuel with
  | zero => intro n hn; omega
  | succ fu ih =>
    intro n hn
    by_cases h10 : n < 10
    · refine ⟨?_, by simp [natDigitsAux, h10], ?_⟩
      · simp [natDigitsAux, h10, digitsToNat, digitChar_toNat n h10]
      · intro c hc
        simp only [natDigitsAux, if_pos h10, List.mem_singleton] at hc
        exact hc ▸ digitChar_isDigit n h10
    · have hdiv : n / 10 < fu := by omega
      obtain ⟨ih1, ih2, ih3⟩ := ih (n / 10) hdiv
      refine ⟨?_, ?_, ?_⟩
      · simp only [natDigitsAux, if_neg h10, digitsToNat_append_singleton, ih1,
          digitChar_toNat (n % 10) (by omega)]
        omega
      · simp only [natDigitsAux, if_neg h10, List.length_append]
        omega
      · intro c hc
        simp only [natDigitsAux, if_neg h10, List.mem_append,
          List.mem_singleton] at hc
        rcases hc with hc | hc
        · exact ih3 c hc
        · exact hc ▸ digitChar_isDigit (n % 10) (by omega)

theorem natDigits_spec (n : Nat) :
    digitsToNat (natDigits n) = n ∧ 1 ≤ (natDigits n).length ∧
      ∀ c ∈ natDigits n, c.isDigit :=
  natDigitsAux_spec (n + 1) n (Nat.lt_succ_self n)

theorem digitsToNat_cons_zero (ds : List Char) :
    digitsToNat ('0' :: ds) = digitsToNat ds := rfl

theorem pad2_spec (n : Nat) :
    2 ≤ (pad2 n).length ∧ (∀ c ∈ pad2 n, c.isDigit) ∧
      digitsToNat (pad2 n) = n := by
  obtain ⟨h1, h2, h3⟩ := natDigits_spec n
  by_cases hlen : 2 ≤ (natDigits n).length
  · simp only [pad2, hlen, if_true]
    exact ⟨trivial, h3, h1⟩
  · simp only [pad2, hlen, if_false]
    refine ⟨by simp only [List.length_cons]; omega, ?_,
      by simpa [digitsToNat_cons_zero] using h1⟩
    intro c hc
    rcases List.mem_cons.mp hc with hc | hc
    · exact hc ▸ (by rfl)
    · exact h3 c hc

/-- C10: for every non-negative `sec`, `format_seconds sec` is a string of
the form `HH:MM:SS` — three all-digit components, each zero-padded to at
least two digits — whose decimal values `h`, `m`, `s` satisfy
`h * 3600 + m * 60 + s = sec` with `m < 60` and `s < 60`. -/
theorem format_seconds_spec (sec : Nat) :
    ∃ H M S : List Char,
      format_seconds sec = H ++ ':' :: M ++ ':' :: S ∧
      2 ≤ H.length ∧ 2 ≤ M.length ∧ 2 ≤ S.length ∧
      (∀ c ∈ H ++ M ++ S, c.isDigit) ∧
      digitsToNat H * 3600 + digitsToNat M * 60 + digitsToNat S = sec ∧
      digitsToNat M < 60 ∧ digitsToNat S < 60 := by
  obtain ⟨hH1, hH2, hH3⟩ := pad2_spec (sec / 3600)
  obtain ⟨hM1, hM2, hM3⟩ := pad2_spec (sec % 3600 / 60)
  obtain ⟨hS1, hS2, hS3⟩ := pad2_spec (sec % 3600 % 60)
  refine ⟨pad2 (sec / 3600), pad2 (sec % 3600 / 60), pad2 (sec % 3600 % 60),
    rfl, hH1, hM1, hS1, ?_, by rw [hH3, hM3, hS3]; omega,
    by rw [hM3]; omega, by rw [hS3]; omega⟩
  intro c hc
  rcases List.mem_append.mp hc with hc | hc
  · rcases List.mem_append.mp hc with hc | hc
    · exact hH2 c hc
    · exact hM2 c hc
  · exact hS2 c hc

/-- C4: `extract_jwt_data` is total (a Lean function of the input string)
and returns the all-absent triple whenever the entry does not split on `'.'`
into exactly three parts, or its second part fails base64 decoding, UTF-8
decoding or JSON parsing. -/
theorem extract_jwt_data_failure_safe (entry : List Char) :
    ((splitDot entry).length ≠ 3 → extract_jwt_data entry = (none, none, none)) ∧
    (∀ h p s, splitDot entry = [h, p, s] → payloadDecode p = none →
      extract_jwt_data entry = (none, none, none)) := by
  constructor
  · intro hlen
    rcases hsd : splitDot entry with _ | ⟨a, _ | ⟨b, _ | ⟨c, _ | ⟨d, t⟩⟩⟩⟩
    · simp [extract_jwt_data, hsd]
    · simp [extract_jwt_data, hsd]
    · simp [extract_jwt_data, hsd]
    · exact absurd (by rw [hsd]; rfl) hlen
    · simp [extract_jwt_data, hsd]
  · intro h p s hsd hp
    simp [extract_jwt_data, hsd, hp]

/-- Witness for C4: a two-part entry, and a three-part entry whose payload is
not base64-decodable. -/
theorem extract_jwt_data_failure_safe_witness :
    extract_jwt_data "onlytwo,parts".toList = (none, none, none) ∧
    extract_jwt_data "a.!.c".toList = (none, none, none) :=
  ⟨(extract_jwt_data_failure_safe "onlytwo,parts".toList).1 (by decide),
    (extract_jwt_data_failure_safe "a.!.c".toList).2 "a".toList "!".toList
      "c".toList (by decide) rfl⟩

/-- C5: for every three-part dot-delimited token whose second segment decodes
(URL-safe base64 with the appended padding, then UTF-8, then JSON) to an
object containing the keys `email`, `sub` and `exp`, `extract_jwt_data`
returns exactly the embedded values of those three keys. -/
theorem extract_jwt_data_wellformed (hdr payload sig : List Char) (kvs : Jdict)
    (hh : '.' ∉ hdr) (hp : '.' ∉ payload) (hs : '.' ∉ sig)
    (hd : payloadDecode payload = some (.obj kvs))
    (he : (pyGet kvs emailKey).isSome) (hsu : (pyGet kvs subKey).isSome)
    (hx : (pyGet kvs expKey).isSome) :
    extract_jwt_data (hdr ++ '.' :: (payload ++ '.' :: sig)) =
      (pyGet kvs emailKey, pyGet kvs subKey, pyGet kvs expKey) := by
  have hsplit : splitDot (hdr ++ '.' :: (payload ++ '.' :: sig)) =
      [hdr, payload, sig] := by
    rw [splitDot_append hdr _ hh, splitDot_append payload _ hp,
      splitDot_no_dot sig hs]
  simp [extract_jwt_data, hsplit, hd]

/-- Witness for C5 at a concrete well-formed token carrying
`{"email":"a@b.com","sub":"123","exp":1999999999}`. -/
theorem extract_jwt_data_wellformed_witness :
    extract_jwt_data ("hh".toList ++ '.' ::
        ("eyJlbWFpbCI6ImFAYi5jb20iLCJzdWIiOiIxMjMiLCJleHAiOjE5OTk5OTk5OTl9".toList
          ++ '.' :: "sig".toList)) =
      (some (.str "a@b.com".toList), some (.str "123".toList),
        some (.num 1999999999)) := by
  rw [extract_jwt_data_wellformed "hh".toList
    "eyJlbWFpbCI6ImFAYi5jb20iLCJzdWIiOiIxMjMiLCJleHAiOjE5OTk5OTk5OTl9".toList
    "sig".toList
    [(emailKey, .str "a@b.com".toList), (subKey, .str "123".toList),
      (expKey, .num 1999999999)]
    (by decide) (by decide) (by decide) rfl rfl rfl rfl]
  rfl

/-- C9: a token line whose payload decodes to a JSON value but whose
`email`, `sub`, `exp` triple is not entirely truthy (a key absent, or a
falsy value such as `exp = 0` or an empty email) is skipped silently by the
main loop: no banner or status is logged, no status fetch and no check-in
happens — strictly more than skipping only undecodable tokens. -/
theorem token_falsy_fields_skipped (env : Env) (line : List Char) (j : JsonVal)
    (hat : '@' ∉ line)
    (hdec : ∃ h p s, splitDot line = [h, p, s] ∧ payloadDecode p = some j)
    (hfalsy : ¬ (pyTruthy (extract_jwt_data line).1 = true ∧
        pyTruthy (extract_jwt_data line).2.1 = true ∧
        pyTruthy (extract_jwt_data line).2.2 = true)) :
    process_line env line = .skipSilent := by
  unfold process_line
  rw [if_neg hat]
  cases hb : (pyTruthy (extract_jwt_data line).1 &&
      pyTruthy (extract_jwt_data line).2.1 &&
      pyTruthy (extract_jwt_data line).2.2) with
  | false => simp [hb]
  | true => exact absurd (by simpa [Bool.and_eq_true, and_assoc] using hb) hfalsy

/-- Witness for C9 at a token whose payload `{"email":"","sub":"123","exp":55}`
decodes but carries a falsy (empty) email. -/
theorem token_falsy_fields_skipped_witness :
    process_line envZero tokenT9 = .skipSilent :=
  token_falsy_fields_skipped envZero tokenT9
    (.obj [(emailKey, .str []), (subKey, .str "123".toList), (expKey, .num 55)])
    (by decide)
    ⟨"hh".toList, "eyJlbWFpbCI6IiIsInN1YiI6IjEyMyIsImV4cCI6NTV9".toList,
      "sig".toList, rfl, rfl⟩
    (by decide)

/-- Evaluation of the token branch of `main_cycle` when all three extracted
fields are truthy, the email is a string and `exp` is a number: the status
is logged and the check-in policy runs exactly under `now_int <= user_e`. -/
theorem process_line_token_eval (env : Env) (line estr : List Char)
    (sv : Option JsonVal) (e : Int) (hat : '@' ∉ line)
    (hex : extract_jwt_data line = (some (.str estr), sv, some (.num e)))
    (hemail : estr ≠ []) (hsub : pyTruthy sv = true) (hexp : e ≠ 0) :
    process_line env line =
      .tokenStatus (check_token_status env.nowSec e)
        (if env.nowSec ≤ e then some (manage_checkin env) else none) := by
  have h1 : pyTruthy (some (JsonVal.str estr)) = true := by
    cases estr with
    | nil => exact absurd rfl hemail
    | cons a t => rfl
  have h3 : pyTruthy (some (JsonVal.num e)) = true := by
    simp [pyTruthy, hexp]
  unfold process_line
  rw [if_neg hat]
  simp [hex, h1, h3, hsub]

/-- C2: for a decoded token (truthy string email, truthy `sub`, non-zero
numeric `exp`), a current time strictly past `exp` classifies it expired and
the main loop runs no check-in policy; a current time strictly before `exp`
classifies it active and the check-in decision policy runs. -/
theorem token_expiry_classification (env : Env) (line estr : List Char)
    (sv : Option JsonVal) (e : Int) (hat : '@' ∉ line)
    (hex : extract_jwt_data line = (some (.str estr), sv, some (.num e)))
    (hemail : estr ≠ []) (hsub : pyTruthy sv = true) (hexp : e ≠ 0) :
    (env.nowSec > e → process_line env line = .tokenStatus .expired none) ∧
    (env.nowSec < e →
      process_line env line = .tokenStatus .active (some (manage_checkin env))) := by
  have heval := process_line_token_eval env line estr sv e hat hex hemail hsub hexp
  constructor
  · intro hgt
    rw [heval]
    simp only [check_token_status]
    rw [if_pos hgt, if_neg (by omega : ¬ env.nowSec ≤ e)]
  · intro hlt
    rw [heval]
    simp only [check_token_status]
    rw [if_neg (by omega : ¬ env.nowSec > e), if_pos (by omega : env.nowSec ≤ e)]

/-- Witness for C2 at the concrete token with `exp = 1999999999` and a clock
one second past it. -/
theorem token_expiry_classification_witness :
    process_line envExpired tokenT5 = .tokenStatus .expired none :=
  (token_expiry_classification envExpired tokenT5 "a@b.com".toList
      (some (.str "123".toList)) 1999999999 (by decide) rfl (by decide) rfl
      (by decide)).1 (by decide)

/-- C8: at the exact expiry boundary `now == exp`, `check_token_status`
classifies the token active (its expired branch needs `now > exp`) and the
main loop still runs the check-in policy (its guard `now <= exp` holds). -/
theorem token_exact_expiry_boundary (env : Env) (line estr : List Char)
    (sv : Option JsonVal) (e : Int) (hat : '@' ∉ line)
    (hex : extract_jwt_data line = (some (.str estr), sv, some (.num e)))
    (hemail : estr ≠ []) (hsub : pyTruthy sv = true) (hexp : e ≠ 0)
    (hnow : env.nowSec = e) :
    process_line env line = .tokenStatus .active (some (manage_checkin env)) ∧
    check_token_status env.nowSec e = .active := by
  have heval := process_line_token_eval env line estr sv e hat hex hemail hsub hexp
  have hst : check_token_status env.nowSec e = .active := by
    simp only [check_token_status]
    rw [if_neg (by omega : ¬ env.nowSec > e)]
  refine ⟨?_, hst⟩
  rw [heval, hst, if_pos (by omega : env.nowSec ≤ e)]

/-- Witness for C8 at the concrete token with `exp = 1999999999` and a clock
equal to it. -/
theorem token_exact_expiry_boundary_witness :
    process_line envBoundary tokenT5 =
      .tokenStatus .active (some (manage_checkin envBoundary)) ∧
    check_token_status envBoundary.nowSec 1999999999 = .active :=
  token_exact_expiry_boundary envBoundary tokenT5 "a@b.com".toList
    (some (.str "123".toList)) 1999999999 (by decide) rfl (by decide) rfl
    (by decide) rfl

/-- C7: a credential line containing `'@'` but no `':'` is handled by the
caught `ValueError` of the unpacking — it is logged as malformed
(`invalidFormat`) and the iteration over the other lines is exactly the
iteration without it on either side. -/
theorem malformed_credential_line_skipped (pre post : List (Env × List Char))
    (env : Env) (line : List Char) (hat : '@' ∈ line) (hcol : ':' ∉ line) :
    processLines (pre ++ (env, line) :: post) =
      processLines pre ++ .invalidFormat :: processLines post := by
  have hline : process_line env line = .invalidFormat := by
    unfold process_line
    rw [if_pos hat, splitFirstColon_of_no_colon line hcol]
  simp [processLines, hline]

/-- Witness for C7 at the line `"user@host"` between two token lines. -/
theorem malformed_credential_line_skipped_witness :
    processLines [(envZero, tokenT9), (envZero, "user@host".toList),
        (envZero, tokenT9)] =
      processLines [(envZero, tokenT9)] ++
        .invalidFormat :: processLines [(envZero, tokenT9)] :=
  malformed_credential_line_skipped [(envZero, tokenT9)] [(envZero, tokenT9)]
    envZero "user@host".toList (by decide) (by decide)

/-- C1: given a non-empty fetched account status, `manage_checkin` performs
the check-in immediately when no `dipInitMineTime` is present, and for a
present, truthy, parseable timestamp it performs the check-in if and only if
the current time has reached `last_checkin + 24h`, otherwise it skips and
reports the next allowed instant `last_checkin + 24h`. -/
theorem manage_checkin_policy (env : Env)
    (hinfo : (request_user_info env.info).result.isEmpty = false) :
    (pyGet (request_user_info env.info).result dipKey = none →
      manage_checkin env =
        .checkinFirst (!(perform_checkin env.checkin).result.isEmpty)) ∧
    (∀ s l, pyGet (request_user_info env.info).result dipKey = some (.str s) →
      s ≠ [] → strptimeUs s = some l →
      ((performedCheckin (manage_checkin env) = true) ↔
        env.nowUs ≥ l + usPerDay) ∧
      (env.nowUs < l + usPerDay →
        manage_checkin env = .tooEarly (l + usPerDay))) := by
  constructor
  · intro hget
    simp [manage_checkin, hinfo, hget, pyTruthy]
  · intro s l hget hs hparse
    have htr : pyTruthy (some (JsonVal.str s)) = true := by
      cases s with
      | nil => exact absurd rfl hs
      | cons a t => rfl
    have hrep : env.nowUs ≥ l + usPerDay →
        manage_checkin env =
          .checkinRepeat (!(perform_checkin env.checkin).result.isEmpty)
            (l + usPerDay) := by
      intro hnow
      simp only [manage_checkin, hinfo, Bool.false_eq_true, if_false, hget,
        htr, if_true, hparse]
      rw [if_pos hnow]
    have htoo : env.nowUs < l + usPerDay →
        manage_checkin env = .tooEarly (l + usPerDay) := by
      intro hnow
      simp only [manage_checkin, hinfo, Bool.false_eq_true, if_false, hget,
        htr, if_true, hparse]
      rw [if_neg (by omega : ¬ env.nowUs ≥ l + usPerDay)]
    refine ⟨⟨fun hperf => ?_, fun hnow => by rw [hrep hnow]; rfl⟩, htoo⟩
    by_cases hnow : env.nowUs ≥ l + usPerDay
    · exact hnow
    · rw [htoo (by omega)] at hperf
      simp [performedCheckin] at hperf

/-- Witness for C1: a status reporting a check-in exactly 24 hours old and a
clock at the boundary — the repeat check-in is performed. -/
theorem manage_checkin_policy_witness :
    performedCheckin (manage_checkin envRepeat) = true :=
  ((manage_checkin_policy envRepeat rfl).2 tsW 1767225600000000 rfl
    (by decide) rfl).1.mpr (by decide)

/-- C3 counterexample: under the schedule in which the first outer-loop
iteration raises `"boom"` and a second iteration is planned, the exception
is logged by `run_final` but only one iteration ever executes — the process
does not continue to the next outer loop iteration. -/
theorem run_final_no_restart_counterexample :
    (run_final [some "boom", none]).logged = some "boom" ∧
    executedIterations [some "boom", none] = 1 ∧
    executedIterations [some "boom", none] ≠ 2 :=
  ⟨rfl, rfl, by decide⟩

/-- C3 (amended): an exception escaping the `while True` loop of
`main_cycle` aborts the loop — no later iteration executes — and is caught
by the single top-level `try/except` of `run_final`, which logs it and
swallows it, so the process terminates normally instead of crashing, but
never resumes the loop. -/
theorem run_final_logs_then_terminates (pre post : List (Option String))
    (e : String) (hpre : ∀ x ∈ pre, x = none) :
    run_final (pre ++ some e :: post) = ⟨some e, none⟩ ∧
    executedIterations (pre ++ some e :: post) = pre.length + 1 := by
  have hmc : ∀ l : List (Option String), (∀ x ∈ l, x = none) →
      mainCycleModel (l ++ some e :: post) = some e ∧
      executedIterations (l ++ some e :: post) = l.length + 1 := by
    intro l
    induction l with
    | nil => intro _; exact ⟨rfl, rfl⟩
    | cons a t ih =>
      intro hl
      have ha : a = none := hl a (List.mem_cons_self a t)
      obtain ⟨ih1, ih2⟩ := ih (fun x hx => hl x (List.mem_cons_of_mem a hx))
      subst ha
      refine ⟨by simpa [mainCycleModel] using ih1, ?_⟩
      simp only [List.cons_append, executedIterations, List.append_eq, ih2,
        List.length_cons]
  obtain ⟨h1, h2⟩ := hmc pre hpre
  exact ⟨by simp [run_final, h1], h2⟩

/-- Witness for the amended C3: one clean iteration, then an exception, then
one planned iteration that never runs. -/
theorem run_final_logs_then_terminates_witness :
    run_final [none, some "boom", none] = ⟨some "boom", none⟩ ∧
    executedIterations [none, some "boom", none] = 2 :=
  run_final_logs_then_terminates [none] [none] "boom" (by simp)
